import Mathlib

/-!
Verification of the MI48 thermal-camera driver (package `mi48`).

The development shallowly embeds the Go source of `mi48.go` and
`constants.go`.  Bytes are modelled as `Nat` (values < 256 on the wire),
byte strings as `List Nat` of ASCII codes, and the serial transport as a
finite list of bytes (for the codec) or a finite list of already-decoded
packets (for the engines above the codec).  Go `float64` arithmetic is
modelled over `ℚ`; every concrete value appearing in a theorem below is
exactly representable, and the claim-relevant outcomes (which branch is
taken, which integer is written to a register) agree between `float64`
and `ℚ` at those inputs.  Go's `uint16` wraparound and `int`→`uint8`
truncations are made explicit with `% 2^16` / `% 2^8`.
-/

/-- ASCII codes of the frame marker `"   #"` (three spaces then `#`). -/
def marker : List Nat := [32, 32, 32, 35]

/-- ASCII codes of the `"RREG"` command tag. -/
def RREGtag : List Nat := [82, 82, 69, 71]

/-- ASCII codes of the `"WREG"` command tag. -/
def WREGtag : List Nat := [87, 82, 69, 71]

/-- ASCII codes of the `"GFRA"` image-frame tag. -/
def GFRAtag : List Nat := [71, 70, 82, 65]

/-- Value of one ASCII hex digit, as accepted by Go `encoding/hex`
(`0`-`9`, `a`-`f`, `A`-`F`); `none` on any other byte. -/
def hexDigitVal (c : Nat) : Option Nat :=
  if 48 ≤ c ∧ c ≤ 57 then some (c - 48)
  else if 97 ≤ c ∧ c ≤ 102 then some (c - 87)
  else if 65 ≤ c ∧ c ≤ 70 then some (c - 55)
  else none

/-- Go `hex.DecodeString`: decodes pairs of hex digits into bytes;
errors (`none`) on an odd-length input or any non-hex byte. -/
def hexDecode : List Nat → Option (List Nat)
  | [] => some []
  | [_] => none
  | a :: b :: r => do
    let x ← hexDigitVal a
    let y ← hexDigitVal b
    let rest ← hexDecode r
    return (x * 16 + y) :: rest

/-- Uppercase ASCII hex digit for a value < 16, as printed by Go `%X`. -/
def hexDigitUpper (d : Nat) : Nat :=
  if d < 10 then 48 + d else 55 + d

/-- The two uppercase hex digits Go `%02X` prints for a byte value. -/
def hex2 (n : Nat) : List Nat :=
  [hexDigitUpper (n / 16 % 16), hexDigitUpper (n % 16)]

/-- The four uppercase hex digits Go `%04X` prints for a value < 2^16. -/
def hex4 (n : Nat) : List Nat :=
  [hexDigitUpper (n / 4096 % 16), hexDigitUpper (n / 256 % 16),
   hexDigitUpper (n / 16 % 16), hexDigitUpper (n % 16)]

/-- `io.ReadFull`: reads exactly `n` bytes from the stream, erroring
(`none`) when fewer are available (short read). -/
def readFull (n : Nat) (s : List Nat) : Option (List Nat × List Nat) :=
  if n ≤ s.length then some (s.take n, s.drop n) else none

/-- Go `Read` into a 4-byte buffer on an in-memory stream: returns up to
4 bytes; it errors only when the stream is already exhausted. -/
def goRead4 (s : List Nat) : Option (List Nat × List Nat) :=
  if s.isEmpty then none else some (s.take 4, s.drop 4)

/-- Header-synchronisation loop of `readPacket`: reads 12-byte blocks
until one starts with the marker `"   #"`.  The fuel argument only
bounds the iteration count; each iteration consumes 12 bytes, so
`s.length + 1` fuel (as supplied by `syncHeader`) is never exhausted
before the stream is. -/
def syncHeaderFuel : Nat → List Nat → Option (List Nat × List Nat)
  | 0, _ => none
  | fuel + 1, s =>
    if 12 ≤ s.length then
      let hd := s.take 12
      let rest := s.drop 12
      if hd.take 4 = marker then some (hd, rest)
      else syncHeaderFuel fuel rest
    else none

/-- The marker-scan loop at the top of `readPacket`. -/
def syncHeader (s : List Nat) : Option (List Nat × List Nat) :=
  syncHeaderFuel (s.length + 1) s

/-- `readPacket` from `mi48.go`: scans to the marker, takes the 12-byte
header (marker, 4 hex length digits, 4-byte type tag), hex-decodes the
length field, computes the payload length as the decoded big-endian
`uint16` minus 8 **in `uint16` arithmetic** (hence the `% 65536`),
reads that many payload bytes with `io.ReadFull`, then reads the 4-byte
trailer with a plain `Read` (unchecked).  Returns
`(packetType, payload, remaining stream)`. -/
def readPacket (s : List Nat) : Option (List Nat × List Nat × List Nat) :=
  match syncHeader s with
  | none => none
  | some (hd, rest) =>
    let h := hd.drop 4
    let packetType := h.drop 4
    match hexDecode (h.take 4) with
    | none => none
    | some lenBytes =>
      let declared := lenBytes.getD 0 0 * 256 + lenBytes.getD 1 0
      let dataLength := (declared + 65528) % 65536
      match readFull dataLength rest with
      | none => none
      | some (data, rest2) =>
        match goRead4 rest2 with
        | none => none
        | some (_crc, rest3) => some (packetType, data, rest3)

/-- The frame `sendCommand` writes for a command string `cmd`:
`"   #" + %04X(len(cmd)) + cmd`.  (`%04X` prints exactly 4 digits for
lengths < 2^16; all commands the driver builds are 12 bytes.) -/
def encodeFrame (cmd : List Nat) : List Nat :=
  marker ++ hex4 cmd.length ++ cmd

example : hexDecode [48, 48, 48, 67] = some [0, 12] := by decide
example : hex4 12 = [48, 48, 48, 67] := by decide

example :
    readPacket (encodeFrame (RREGtag ++ [66, 65, 88, 88, 88, 88, 88, 88])) =
      some (RREGtag, [66, 65, 88, 88], []) := by decide

/-- The `register` struct of `constants.go`: address, byte length,
read-only flag. -/
structure Register where
  Address : Nat
  Length : Nat
  ReadOnly : Bool
deriving DecidableEq

def FRAME_MODE : Register := ⟨0xB1, 1, false⟩
def FW_VERSION : Register := ⟨0xB2, 2, true⟩
def FRAME_RATE : Register := ⟨0xB4, 1, false⟩
def POWER_DOWN_1 : Register := ⟨0xB5, 1, false⟩
def STATUS : Register := ⟨0xB6, 1, true⟩
def CLK_SPEED : Register := ⟨0xB7, 1, false⟩
def SENXOR_TYPE : Register := ⟨0xBA, 1, true⟩
def SENSITIVITY_FACTOR : Register := ⟨0xC2, 1, false⟩
def EMISSIVITY : Register := ⟨0xCA, 1, false⟩
def OFFSET_CORR : Register := ⟨0xCB, 1, false⟩
def SENXOR_ID : Register := ⟨0xE0, 6, true⟩
def FILTER_CONTROL : Register := ⟨0xD0, 1, false⟩
def FILTER_SETTING_1_LSB : Register := ⟨0xD1, 1, false⟩
def FILTER_SETTING_1_MSB : Register := ⟨0xD2, 1, false⟩
def FILTER_SETTING_2 : Register := ⟨0xD3, 1, false⟩
def NETD_CONFIG : Register := ⟨0xD4, 1, false⟩
def NETD_FACTOR : Register := ⟨0xD5, 1, false⟩
def NETD_PIXEL_X : Register := ⟨0xD6, 1, false⟩
def NETD_PIXEL_Y : Register := ⟨0xD7, 1, false⟩
def USER_FLASH_CTRL : Register := ⟨0xD8, 1, false⟩

/-- `frameMode` code for continuous streaming (source name kept,
including its typo). -/
def CONTNIUOUS_STREAM : Nat := 2

/-- The `cameraTypes` lookup table of `constants.go`; `none` models a
missing map key. -/
def cameraTypes (c : Nat) : Option String :=
  match c with
  | 0 => some "MI0801 non-MP"
  | 1 => some "MI0801"
  | 2 => some "MI0301"
  | 3 => some "MI0802"
  | 8 => some "panther"
  | _ => none

/-- Byte length of the `image.Gray16` pixel buffer for a camera type:
width × height × 2 from the `sensorSizes` table (a missing map key
yields Go's zero `image.Rectangle`, hence 0). -/
def sensorPixLen (c : Nat) : Nat :=
  match c with
  | 0 => 80 * 62 * 2
  | 1 => 80 * 62 * 2
  | 2 => 32 * 32 * 2
  | 3 => 80 * 62 * 2
  | 8 => 160 * 120 * 2
  | _ => 0

/-- Bytes of the command string `fmt.Sprintf("RREG%02XXXXXXX", addr)`. -/
def rregCmd (addr : Nat) : List Nat :=
  RREGtag ++ hex2 addr ++ List.replicate 6 88

/-- Bytes of the command string `fmt.Sprintf("WREG%02X%02XXXXX", addr, v)`. -/
def wregCmd (addr : Nat) (v : Nat) : List Nat :=
  WREGtag ++ hex2 addr ++ hex2 v ++ List.replicate 4 88

/-- `writeRegister` from `mi48.go`, with the transport abstracted to
always deliver the command (the pure part of the function): returns the
list of command strings handed to `sendCommand` and whether the call
succeeded.  A read-only register fails before any transport access. -/
def writeRegister (reg : Register) (value : Nat) : List (List Nat) × Bool :=
  if reg.ReadOnly then ([], false)
  else ([wregCmd reg.Address value], true)

/-- The read loop of `readRegister`: iteration `i` of `k` remaining
sends `RREG` for address `(addr + i) mod 256` (Go `uint8` addition),
fails on a transport error or an empty response, and prepends the
response bytes to the rest, in address order.  Returns the commands
issued and, on success, the concatenated raw (still hex-encoded)
response data. -/
def rrAux (send : List Nat → Option (List Nat)) (addr : Nat) :
    Nat → Nat → List (List Nat) × Option (List Nat)
  | _, 0 => ([], some [])
  | i, k + 1 =>
    let cmd := rregCmd ((addr + i) % 256)
    match send cmd with
    | none => ([cmd], none)
    | some resp =>
      if resp.length = 0 then ([cmd], none)
      else
        let (cmds, r) := rrAux send addr (i + 1) k
        (cmd :: cmds, r.map (resp ++ ·))

/-- `readRegister` from `mi48.go`: one single-address `RREG` command per
byte of the descriptor (the loop bound is Go `uint8(reg.Length)`, hence
`% 256`), responses concatenated in address order and hex-decoded at
the end.  `send` abstracts `sendCommand`'s response for one command. -/
def readRegister (send : List Nat → Option (List Nat)) (reg : Register) :
    List (List Nat) × Option (List Nat) :=
  let (cmds, r) := rrAux send reg.Address 0 (reg.Length % 256)
  (cmds, r.bind hexDecode)

example :
    readRegister (fun _ => some [48, 70]) FW_VERSION =
      ([rregCmd 0xB2, rregCmd 0xB3], some [15, 15]) := by decide

/-- Go `math.Round`: round half away from zero. -/
def goRound (q : ℚ) : Int :=
  if 0 ≤ q then ⌊q + 1 / 2⌋ else -⌊-q + 1 / 2⌋

/-- Go conversion of an `int` to `uint8`: keep the low 8 bits
(two's complement), i.e. reduce modulo 256. -/
def int2u8 (z : Int) : Nat := (z % 256).toNat

/-- Go conversion of a non-negative in-range `float64` to `uint8`:
truncation of the fractional part.  (Out-of-range or negative
conversions are not defined by the Go spec; every use below is guarded
to the in-range case, where truncation toward zero equals the floor.) -/
def f64ToUint8 (q : ℚ) : Nat := ⌊q⌋.toNat

/-- `getMaxFPS` from `mi48.go`, as a function of the camera-type byte
already read from `SENXOR_TYPE`: types 0 and 1 give 25.5, type 2 gives
28.57, and every other type returns 0.0 **with no error**. -/
def getMaxFPS (cameraType : Nat) : ℚ :=
  match cameraType with
  | 0 => 51 / 2
  | 1 => 51 / 2
  | 2 => 2857 / 100
  | _ => 0

/-- `SetFramerate` from `mi48.go`: rejects `frameRate == 0` and
`frameRate > MaxFPS` (and nothing else), computes the divisor
`math.Round(MaxFPS / frameRate)`, writes its low byte to `FRAME_RATE`,
and returns `MaxFPS / float64(divisor)`.  Result: commands written and
`some actualRate` on success, `none` on error. -/
def SetFramerate (maxFPS frameRate : ℚ) : List (List Nat) × Option ℚ :=
  if frameRate = 0 ∨ maxFPS < frameRate then ([], none)
  else
    let divisor := goRound (maxFPS / frameRate)
    let (cmds, ok) := writeRegister FRAME_RATE (int2u8 divisor)
    (cmds, if ok then some (maxFPS / (divisor : ℚ)) else none)

/-- `SetTemperatureOffset` from `mi48.go`: divides by the 0.05 °C step
and writes either `uint8(offsetValue)` or `uint8(256 - |offsetValue|)`
to `OFFSET_CORR` depending on sign. -/
def SetTemperatureOffset (offset : ℚ) : List (List Nat) × Bool :=
  let offsetValue := offset / (1 / 20)
  if offsetValue < 0 then
    writeRegister OFFSET_CORR (f64ToUint8 (256 - |offsetValue|))
  else
    writeRegister OFFSET_CORR (f64ToUint8 offsetValue)

/-- The `NETDConfig` struct of `mi48.go` (`Factor`, `X`, `Y` are
`uint8`). -/
structure NETDConfig where
  Enabled : Bool
  RowInFrame : Bool
  Factor : Nat
  X : Nat
  Y : Nat
deriving DecidableEq

/-- The config byte `SetNETD` composes: starts at 0, sets bit 0 when
`Enabled`, and sets bit 1 only inside the `Enabled` branch when
`RowInFrame` also holds. -/
def netdConfigByte (c : NETDConfig) : Nat :=
  if c.Enabled then
    if c.RowInFrame then 0x01 ||| 0x02 else 0x01
  else 0x00

/-- `SetNETD` from `mi48.go`: four register writes in source order —
factor, pixel Y, pixel X, then the composed config byte — stopping at
the first failure. -/
def SetNETD (c : NETDConfig) : List (List Nat) × Bool :=
  let (w1, ok1) := writeRegister NETD_FACTOR c.Factor
  if ok1 then
    let (w2, ok2) := writeRegister NETD_PIXEL_Y c.Y
    if ok2 then
      let (w3, ok3) := writeRegister NETD_PIXEL_X c.X
      if ok3 then
        let (w4, ok4) := writeRegister NETD_CONFIG (netdConfigByte c)
        (w1 ++ w2 ++ w3 ++ w4, ok4)
      else (w1 ++ w2 ++ w3, false)
    else (w1 ++ w2, false)
  else (w1, false)

example :
    SetNETD ⟨true, true, 0x14, 1, 2⟩ =
      ([wregCmd 0xD5 0x14, wregCmd 0xD7 2, wregCmd 0xD6 1, wregCmd 0xD4 3],
        true) := by decide
/-- Helper: on a non-negative offset the positive branch runs and the
truncated scaled offset is written. -/
theorem setTemperatureOffset_nonneg (q : ℚ) (h : 0 ≤ q) :
    SetTemperatureOffset q = ([wregCmd 0xCB (⌊q * 20⌋).toNat], true) := by
  have hdiv : q / (1 / 20) = q * 20 := by
    rw [one_div, div_eq_mul_inv, inv_inv]
  have hnn : ¬ q * 20 < 0 := not_lt.mpr (by positivity)
  simp only [SetTemperatureOffset, hdiv, if_neg hnn]
  rfl

/-- Helper: on a negative offset the wraparound branch runs. -/
theorem setTemperatureOffset_neg (q : ℚ) (h : q < 0) :
    SetTemperatureOffset q =
      ([wregCmd 0xCB (⌊256 - |q * 20|⌋).toNat], true) := by
  have hdiv : q / (1 / 20) = q * 20 := by
    rw [one_div, div_eq_mul_inv, inv_inv]
  have hlt : q * 20 < 0 := mul_neg_of_neg_of_pos h (by norm_num)
  simp only [SetTemperatureOffset, hdiv, if_pos hlt]
  rfl

example : SetTemperatureOffset (-5) = ([wregCmd 0xCB 156], true) := by
  rw [setTemperatureOffset_neg (-5) (by norm_num)]
  norm_num
  rfl

example : SetTemperatureOffset (5 / 2) = ([wregCmd 0xCB 50], true) := by
  rw [setTemperatureOffset_nonneg (5 / 2) (by norm_num)]
  norm_num
  rfl

/-- Transport-level events, used to audit the arbitration (locking)
discipline of `sendCommand` and of the streaming goroutine. -/
inductive TransportEv where
  | writeB : List Nat → TransportEv
  | lockAcq : TransportEv
  | lockRel : TransportEv
  | readPkt : TransportEv
deriving DecidableEq

/-- The response-filter loop of `sendCommand`: repeatedly read a packet
(one `readPkt` event each) until one whose tag equals the command's tag
arrives; exhausting the stream models a read error.  Returns the events
of the loop and the matching payload, if any. -/
def awaitResponse (tag : List Nat) :
    List (List Nat × List Nat) → List TransportEv × Option (List Nat)
  | [] => ([.readPkt], none)
  | (t, d) :: rest =>
    if t = tag then ([.readPkt], some d)
    else
      let (evs, r) := awaitResponse tag rest
      (.readPkt :: evs, r)

/-- The event trace of `sendCommand` from `mi48.go`, over a stream of
already-decoded incoming packets: it **writes the command frame first**,
then acquires `readMutex`, runs the response-filter loop, and releases
the lock on return (the deferred unlock also runs on the error path). -/
def sendCommandTrace (cmd : List Nat) (packets : List (List Nat × List Nat)) :
    List TransportEv × Option (List Nat) :=
  let (evs, r) := awaitResponse (cmd.take 4) packets
  (.writeB (encodeFrame cmd) :: .lockAcq :: (evs ++ [.lockRel]), r)

/-- How the streaming goroutine's loop ends: `closed` models a `return`
(the deferred `close(videoStream)` runs), `blocked` models the loop
stuck forever in `m.readMutex.Lock()` (the channel is never closed). -/
inductive StreamEnd where
  | closed : StreamEnd
  | blocked : StreamEnd
deriving DecidableEq

/-- One traversal of the streaming goroutine's loop from `StartStream`
(no cancellation signal), over a stream of already-decoded packets.
`locked` says whether `readMutex` is already held at the top of the
iteration; the loop body acquires the mutex and **never releases it**,
so the recursive call always runs with `locked = true` and blocks.
Returns the events, the pixel buffers delivered on the channel (the
tail `pixLen` bytes of each sufficiently large `GFRA` payload), and how
the loop ended. -/
def streamStep (pixLen : Nat) :
    Bool → List (List Nat × List Nat) →
      List TransportEv × List (List Nat) × StreamEnd
  | true, _ => ([], [], .blocked)
  | false, [] => ([.lockAcq, .readPkt], [], .closed)
  | false, (t, d) :: rest =>
    if t = GFRAtag then
      if d.length < pixLen then ([.lockAcq, .readPkt], [], .closed)
      else
        let (evs, out, e) := streamStep pixLen true rest
        (.lockAcq :: .readPkt :: evs, d.drop (d.length - pixLen) :: out, e)
    else
      let (evs, out, e) := streamStep pixLen true rest
      (.lockAcq :: .readPkt :: evs, out, e)

/-- Lock-balance audit of a trace: every `readPkt` event must occur
with at least one more acquisition than release before it. -/
def readsLocked : Nat → List TransportEv → Bool
  | _, [] => true
  | bal, .lockAcq :: r => readsLocked (bal + 1) r
  | bal, .lockRel :: r => readsLocked (bal - 1) r
  | bal, .readPkt :: r => decide (0 < bal) && readsLocked bal r
  | bal, .writeB _ :: r => readsLocked bal r

/-- Lock-balance audit of a trace: every transport access (`readPkt`
and `writeB`) must occur while the lock is held. -/
def accessesLocked : Nat → List TransportEv → Bool
  | _, [] => true
  | bal, .lockAcq :: r => accessesLocked (bal + 1) r
  | bal, .lockRel :: r => accessesLocked (bal - 1) r
  | bal, .readPkt :: r => decide (0 < bal) && accessesLocked bal r
  | bal, .writeB _ :: r => decide (0 < bal) && accessesLocked bal r

example :
    streamStep 4 false [(GFRAtag, [9, 9, 9, 9]), (GFRAtag, [7])] =
      ([.lockAcq, .readPkt], [[9, 9, 9, 9]], .blocked) := by decide

example :
    streamStep 4 false [(GFRAtag, [7])] =
      ([.lockAcq, .readPkt], [], .closed) := by decide

/-- Each uppercase hex digit decodes back to its value. -/
theorem hexDigitVal_upper (d : Nat) (h : d < 16) :
    hexDigitVal (hexDigitUpper d) = some d := by
  revert d h
  decide

/-- `hexDecode` inverts `hex4` on values below 2^16, producing the two
big-endian bytes. -/
theorem hexDecode_hex4 (n : Nat) (h : n < 65536) :
    hexDecode (hex4 n) = some [n / 256, n % 256] := by
  have h1 : n / 4096 % 16 < 16 := Nat.mod_lt _ (by norm_num)
  have h2 : n / 256 % 16 < 16 := Nat.mod_lt _ (by norm_num)
  have h3 : n / 16 % 16 < 16 := Nat.mod_lt _ (by norm_num)
  have h4 : n % 16 < 16 := Nat.mod_lt _ (by norm_num)
  simp only [hex4, hexDecode, hexDigitVal_upper _ h1, hexDigitVal_upper _ h2,
    hexDigitVal_upper _ h3, hexDigitVal_upper _ h4, Option.bind_some,
    Option.some_bind, bind, Option.bind, Option.pure_def]
  refine congrArg some ?_
  have e1 : n / 4096 % 16 * 16 + n / 256 % 16 = n / 256 := by omega
  have e2 : n / 16 % 16 * 16 + n % 16 = n % 256 := by omega
  rw [e1, e2]

/-- The sync loop recognises a stream that starts with the marker:
one 12-byte read returns the header. -/
theorem syncHeader_marker (L tag rest : List Nat) (hL : L.length = 4)
    (htag : tag.length = 4) :
    syncHeader (marker ++ L ++ tag ++ rest) =
      some ((marker ++ L) ++ tag, rest) := by
  have hm : marker.length = 4 := rfl
  have hA : ((marker ++ L) ++ tag).length = 12 := by
    simp [List.length_append, hL, htag, hm]
  have hlen : (marker ++ L ++ tag ++ rest).length = 12 + rest.length := by
    simp [List.length_append, hL, htag, hm]
    omega
  have htake4 : ((marker ++ L) ++ tag).take 4 = marker := by
    rw [List.append_assoc]
    exact List.take_left' hm
  rw [syncHeader, hlen]
  simp only [syncHeaderFuel, hlen]
  rw [if_pos (by omega), List.take_left' hA, List.drop_left' hA,
    if_pos htake4]

/-- Master decode lemma: on a stream `marker ++ L ++ tag ++ rest` with a
4-byte length field `L` and 4-byte tag, `readPacket` fails if `L` is
not hex; otherwise it computes the payload length `n` as the decoded
big-endian value minus 8 in `uint16` arithmetic, fails unless at least
`n + 1` bytes remain (payload plus a nonempty trailer read), and
otherwise returns the tag, the next `n` bytes, and what follows the
4-byte trailer. -/
theorem readPacket_marker (L tag rest : List Nat) (hL : L.length = 4)
    (htag : tag.length = 4) :
    readPacket (marker ++ L ++ tag ++ rest) =
      match hexDecode L with
      | none => none
      | some lb =>
        let n := (lb.getD 0 0 * 256 + lb.getD 1 0 + 65528) % 65536
        if n < rest.length then
          some (tag, rest.take n, (rest.drop n).drop 4)
        else none := by
  have hm : marker.length = 4 := rfl
  have hdrop4 : ((marker ++ L) ++ tag).drop 4 = L ++ tag := by
    rw [List.append_assoc]
    exact List.drop_left' hm
  rw [readPacket, syncHeader_marker L tag rest hL htag]
  simp only [hdrop4, List.drop_left' hL, List.take_left' hL]
  cases hdec : hexDecode L with
  | none => rfl
  | some lb =>
    simp only []
    set n := (lb.getD 0 0 * 256 + lb.getD 1 0 + 65528) % 65536 with hn
    by_cases h1 : n < rest.length
    · have hle : n ≤ rest.length := Nat.le_of_lt h1
      have hne : ((rest.drop n).isEmpty) = false := by
        rw [List.isEmpty_eq_false]
        intro hc
        have := congrArg List.length hc
        simp [List.length_drop] at this
        omega
      rw [readFull, if_pos hle]
      simp only [goRead4, hne, Bool.false_eq_true, if_neg, if_pos h1]
      simp
    · rcases Nat.lt_or_ge rest.length n with h2 | h2
      · rw [readFull, if_neg (by omega)]
        simp [h1]
      · have heq : n = rest.length := by omega
        have hnil : rest.drop n = [] := by
          rw [heq]
          exact List.drop_length rest
        rw [readFull, if_pos (by omega)]
        simp [goRead4, hnil, h1]

/-- C1 counterexample: encoding the `RREG` command for register 0xBA
(type tag `"RREG"`, body `"BAXXXXXX"`) and decoding exactly those bytes
yields the original tag but **not** the original body as payload: the
length field `sendCommand` writes is `len(tag ++ body)`, while
`readPacket` subtracts 8 from it, so the body's last four bytes are
consumed as the unchecked trailer. -/
theorem C1_counterexample :
    readPacket (encodeFrame (RREGtag ++ [66, 65, 88, 88, 88, 88, 88, 88])) =
        some (RREGtag, [66, 65, 88, 88], []) ∧
      ([66, 65, 88, 88] : List Nat) ≠ [66, 65, 88, 88, 88, 88, 88, 88] := by
  decide

/-- C1 (amended): for every 4-byte type tag and every body of at least
4 bytes (total command below 2^16), decoding the frame `sendCommand`
builds recovers the original type tag, and recovers as payload the body
**with its final 4 bytes removed** (those are consumed as the unchecked
4-byte trailer), consuming the frame exactly. -/
theorem C1_roundtrip_amended (tag body : List Nat) (htag : tag.length = 4)
    (hb : 4 ≤ body.length) (hlt : body.length + 4 < 65536) :
    readPacket (encodeFrame (tag ++ body)) =
      some (tag, body.take (body.length - 4), []) := by
  have hclen : (tag ++ body).length = 4 + body.length := by
    rw [List.length_append, htag]
  have hL : (hex4 (tag ++ body).length).length = 4 := by
    simp [hex4]
  have hshape : encodeFrame (tag ++ body) =
      marker ++ hex4 (tag ++ body).length ++ tag ++ body := by
    rw [encodeFrame]
    simp [List.append_assoc]
  rw [hshape, readPacket_marker _ _ _ hL htag,
    hexDecode_hex4 _ (by omega)]
  simp only [List.getD_cons_zero, List.getD_cons_succ]
  have hn : ((tag ++ body).length / 256 * 256 + (tag ++ body).length % 256 +
      65528) % 65536 = body.length - 4 := by
    rw [hclen]
    omega
  rw [hn, if_pos (by omega)]
  have hdd : (body.drop (body.length - 4)).drop 4 = [] := by
    apply List.drop_eq_nil_of_le
    rw [List.length_drop]
    omega
  rw [hdd]

/-- C1 amended, witnessed at tag `"RREG"` and the 6-byte body
`"012345"`: the decoded payload is the body's first 2 bytes. -/
theorem C1_roundtrip_amended_witness :
    readPacket (encodeFrame (RREGtag ++ [48, 49, 50, 51, 52, 53])) =
      some (RREGtag, [48, 49], []) := by
  have h := C1_roundtrip_amended RREGtag [48, 49, 50, 51, 52, 53]
    (by decide) (by decide) (by decide)
  simpa using h

/-- C3 counterexample: a frame whose length field decodes to 7 (< 8) is
**not** rejected: the `uint16` subtraction wraps and `readPacket`
happily reads a 65535-byte payload.  Moreover a trailer read that
returns only 1 of the requested 4 bytes is also not an error. -/
theorem C3_counterexample :
    (readPacket (marker ++ [48, 48, 48, 55] ++ [84, 69, 83, 84] ++
        List.replicate 65536 0) =
      some ([84, 69, 83, 84], List.replicate 65535 0, [])) ∧
    (readPacket (marker ++ [48, 48, 48, 57] ++ [84, 69, 83, 84] ++ [1, 2]) =
      some ([84, 69, 83, 84], [1], [])) := by
  constructor
  · rw [readPacket_marker _ _ _ (by decide) (by decide),
      show hexDecode [48, 48, 48, 55] = some [0, 7] from by decide]
    simp only [List.getD_cons_zero, List.getD_cons_succ]
    rw [if_pos (by rw [List.length_replicate]; omega)]
    rw [List.take_replicate, List.drop_replicate]
    norm_num
  · decide

/-- C3 (amended): `readPacket` errors on a non-hex length field and on a
short header or payload read; but a length field below 8 is **not**
rejected — the payload length is `(declared − 8) mod 2^16`, so small
declared lengths wrap to huge reads — and the 4-byte trailer read
accepts a short (1–4 byte) read, erroring only at end of stream. -/
theorem C3_decode_amended :
    (∀ L tag rest : List Nat, L.length = 4 → tag.length = 4 →
      hexDecode L = none → readPacket (marker ++ L ++ tag ++ rest) = none) ∧
    (∀ L tag rest : List Nat, ∀ a b : Nat, L.length = 4 → tag.length = 4 →
      hexDecode L = some [a, b] →
      rest.length ≤ (a * 256 + b + 65528) % 65536 →
      readPacket (marker ++ L ++ tag ++ rest) = none) ∧
    (∀ L tag rest : List Nat, ∀ a b : Nat, L.length = 4 → tag.length = 4 →
      hexDecode L = some [a, b] →
      (a * 256 + b + 65528) % 65536 < rest.length →
      readPacket (marker ++ L ++ tag ++ rest) =
        some (tag, rest.take ((a * 256 + b + 65528) % 65536),
          (rest.drop ((a * 256 + b + 65528) % 65536)).drop 4)) := by
  refine ⟨?_, ?_, ?_⟩
  · intro L tag rest hL htag hdec
    rw [readPacket_marker _ _ _ hL htag, hdec]
  · intro L tag rest a b hL htag hdec hshort
    rw [readPacket_marker _ _ _ hL htag, hdec]
    simp only [List.getD_cons_zero, List.getD_cons_succ]
    rw [if_neg (by omega)]
  · intro L tag rest a b hL htag hdec hlong
    rw [readPacket_marker _ _ _ hL htag, hdec]
    simp only [List.getD_cons_zero, List.getD_cons_succ]
    rw [if_pos hlong]

/-- C3 amended, witnessed: length field `"0009"` (declared 9, payload
length 1) on a 6-byte remainder returns the 1-byte payload and leaves
the byte after the trailer. -/
theorem C3_decode_amended_witness :
    readPacket (marker ++ [48, 48, 48, 57] ++ [82, 69, 83, 80] ++
        [5, 6, 7, 8, 9, 10]) =
      some ([82, 69, 83, 80], [5], [10]) := by
  have h := C3_decode_amended.2.2 [48, 48, 48, 57] [82, 69, 83, 80]
    [5, 6, 7, 8, 9, 10] 0 9 (by decide) (by decide) (by decide) (by decide)
  simpa using h

/-- The response-filter loop performs only reads, and all of them pass
the lock audit when the lock is already held. -/
theorem readsLocked_await (tag : List Nat) (bal : Nat) (h : 0 < bal)
    (pkts : List (List Nat × List Nat)) :
    readsLocked bal ((awaitResponse tag pkts).1 ++ [.lockRel]) = true := by
  induction pkts with
  | nil => simp [awaitResponse, readsLocked, h]
  | cons p rest ih =>
    obtain ⟨t, d⟩ := p
    by_cases ht : t = tag
    · simp [awaitResponse, ht, readsLocked, h]
    · simp only [awaitResponse, if_neg ht]
      simpa [readsLocked, h] using ih

/-- The streaming loop's event trace is always exactly one acquisition
and one read: the first iteration never releases the mutex, so the
second iteration's acquisition blocks forever. -/
theorem streamStep_trace (pixLen : Nat) (pkts : List (List Nat × List Nat)) :
    (streamStep pixLen false pkts).1 = [.lockAcq, .readPkt] := by
  cases pkts with
  | nil => rfl
  | cons p rest =>
    obtain ⟨t, d⟩ := p
    by_cases ht : t = GFRAtag
    · by_cases hlen : d.length < pixLen
      · simp [streamStep, ht, hlen]
      · simp [streamStep, ht, hlen]
    · simp [streamStep, ht]

/-- C2 counterexample: in `sendCommand`'s event trace the command write
happens **before** the lock acquisition (so not every transport access
is under the lock), and the streaming loop's trace over two good frames
contains no release at all and ends blocked on its own mutex instead of
going on to the second frame. -/
theorem C2_counterexample :
    accessesLocked 0
        (sendCommandTrace (RREGtag ++ [66, 65, 88, 88, 88, 88, 88, 88])
          [(RREGtag, [48, 48])]).1 = false ∧
      ((streamStep 4 false
          [(GFRAtag, [1, 2, 3, 4]), (GFRAtag, [5, 6, 7, 8])]).1).count
        TransportEv.lockRel = 0 ∧
      (streamStep 4 false
          [(GFRAtag, [1, 2, 3, 4]), (GFRAtag, [5, 6, 7, 8])]).2.2 =
        StreamEnd.blocked := by
  decide

/-- C2 (amended): `sendCommand` holds the lock for every
discard-and-retry read, but the command **write** precedes the
acquisition (the trace starts with the write, outside the lock); the
streaming loop acquires the lock once and never releases it, so its
trace is a single acquisition and read regardless of how many frames
arrive. -/
theorem C2_lock_discipline_amended (cmd : List Nat)
    (packets : List (List Nat × List Nat)) (pixLen : Nat)
    (pkts : List (List Nat × List Nat)) :
    readsLocked 0 (sendCommandTrace cmd packets).1 = true ∧
      (sendCommandTrace cmd packets).1.head? =
        some (.writeB (encodeFrame cmd)) ∧
      (streamStep pixLen false pkts).1 = [.lockAcq, .readPkt] ∧
      ((streamStep pixLen false pkts).1).count TransportEv.lockRel = 0 := by
  refine ⟨?_, ?_, streamStep_trace pixLen pkts, ?_⟩
  · have h := readsLocked_await (cmd.take 4) 1 (by omega) packets
    simpa [sendCommandTrace, readsLocked] using h
  · simp [sendCommandTrace]
  · rw [streamStep_trace pixLen pkts]
    decide

/-- A first `GFRA` frame of exactly the expected size is delivered,
after which the loop blocks on its own mutex. -/
theorem streamStep_exact_frame (pl : Nat) (d : List Nat) (h : d.length = pl)
    (rest : List (List Nat × List Nat)) :
    streamStep pl false ((GFRAtag, d) :: rest) =
      ([.lockAcq, .readPkt], [d], .blocked) := by
  simp [streamStep, h, Nat.lt_irrefl, Nat.sub_self]

/-- An undersized first `GFRA` frame makes the loop return (closing the
channel) without delivering anything. -/
theorem streamStep_undersized_first (pl : Nat) (d : List Nat)
    (h : d.length < pl) (rest : List (List Nat × List Nat)) :
    streamStep pl false ((GFRAtag, d) :: rest) =
      ([.lockAcq, .readPkt], [], .closed) := by
  simp [streamStep, h]

/-- C6: on the 32×32 sensor (type 2) the loop delivers a first
well-formed `GFRA` frame, then — because the mutex acquired for it was
never released — blocks forever on the next `Lock()` without ever
reading the undersized second frame: the loop neither terminates nor
closes the channel (`blocked`), contradicting the claim.  Only when the
undersized frame is the **first** packet does the loop terminate and
close the channel without delivering it (`closed`). -/
theorem C6_stream_deadlock :
    streamStep (sensorPixLen 2) false
        [(GFRAtag, List.replicate (sensorPixLen 2) 9), (GFRAtag, [7])] =
      ([.lockAcq, .readPkt], [List.replicate (sensorPixLen 2) 9],
        StreamEnd.blocked) ∧
    streamStep (sensorPixLen 2) false [(GFRAtag, [7])] =
      ([.lockAcq, .readPkt], [], StreamEnd.closed) :=
  ⟨streamStep_exact_frame _ _ (List.length_replicate _ _) _,
    streamStep_undersized_first _ _ (by norm_num [sensorPixLen]) _⟩

/-- `math.Round` is the identity on non-negative integers. -/
theorem goRound_intCast (z : Int) (h : 0 ≤ z) : goRound (z : ℚ) = z := by
  rw [goRound, if_pos (by exact_mod_cast h)]
  rw [show ((z : ℚ) + 1 / 2) = ((z : ℚ) + 1 / 2) from rfl, Int.floor_int_add]
  norm_num

/-- `math.Round` of a quantity at least 1 is at least 1. -/
theorem goRound_ge_one (q : ℚ) (h : 1 ≤ q) : 1 ≤ goRound q := by
  rw [goRound, if_pos (le_trans zero_le_one h)]
  apply Int.le_floor.mpr
  push_cast
  linarith

/-- C4 counterexample: `SetFramerate` does **not** error on the
out-of-range target −1 (the guard only rejects 0 and values above
`MaxFPS`); and for the in-range target 0.05 Hz at `MaxFPS` = 25.5 the
divisor is 510 but the byte written is its `uint8` truncation 254, not
the divisor. -/
theorem C4_counterexample :
    SetFramerate (51 / 2) (-1) = ([wregCmd 0xB4 230], some (-(51 / 52))) ∧
      ¬ (0 < (-1 : ℚ)) ∧
      SetFramerate (51 / 2) (1 / 20) = ([wregCmd 0xB4 254], some (1 / 20)) ∧
      (510 : Int) ≠ 254 := by
  refine ⟨?_, by norm_num, ?_, by decide⟩
  · have e1 : (51 : ℚ) / 2 / -1 = -(51 / 2) := by norm_num
    have e2 : goRound (-(51 / 2) : ℚ) = -26 := by
      rw [goRound, if_neg (by norm_num)]
      norm_num
    rw [SetFramerate, if_neg (by norm_num), e1, e2]
    simp only [writeRegister, FRAME_RATE, Bool.false_eq_true, if_neg]
    norm_num [int2u8]
    rfl
  · have e1 : (51 : ℚ) / 2 / (1 / 20) = 510 := by norm_num
    have e2 : goRound (510 : ℚ) = 510 := by
      have := goRound_intCast 510 (by omega)
      exact_mod_cast this
    rw [SetFramerate, if_neg (by norm_num), e1, e2]
    simp only [writeRegister, FRAME_RATE, Bool.false_eq_true, if_neg]
    norm_num [int2u8]
    rfl

/-- C4 (amended): `SetFramerate` errors exactly when the target is 0 or
exceeds `MaxFPS` — negative targets are **accepted** — and on
0 < target ≤ MaxFPS it computes the divisor `round(MaxFPS/target)`,
writes the divisor's low byte (`uint8` truncation) to `FRAME_RATE`,
returns `MaxFPS/divisor`, and `round(MaxFPS/actualRate)` reproduces the
divisor. -/
theorem C4_setframerate_amended (max t : ℚ) :
    ((t = 0 ∨ max < t) → SetFramerate max t = ([], none)) ∧
      (0 < t → t ≤ max →
        SetFramerate max t =
            ([wregCmd 0xB4 (int2u8 (goRound (max / t)))],
              some (max / (goRound (max / t) : ℚ))) ∧
          1 ≤ goRound (max / t) ∧
          goRound (max / (max / (goRound (max / t) : ℚ))) =
            goRound (max / t)) := by
  constructor
  · intro h
    rw [SetFramerate, if_pos h]
  · intro ht htm
    have hguard : ¬ (t = 0 ∨ max < t) := by
      push_neg
      exact ⟨ne_of_gt ht, htm⟩
    have hd1 : 1 ≤ max / t := (one_le_div ht).mpr htm
    have hd : 1 ≤ goRound (max / t) := goRound_ge_one _ hd1
    have hmax0 : 0 < max := lt_of_lt_of_le ht htm
    refine ⟨?_, hd, ?_⟩
    · rw [SetFramerate, if_neg hguard]
      rfl
    · have key : max / (max / (goRound (max / t) : ℚ)) =
          (goRound (max / t) : ℚ) := by
        rw [div_div_eq_mul_div, mul_comm, mul_div_assoc,
          div_self (ne_of_gt hmax0), mul_one]
      rw [key]
      exact goRound_intCast _ (by omega)

/-- C4 amended, witnessed at `MaxFPS` = 25.5 and target 25.5: the
divisor is 1, byte 1 is written, and the actual rate is 25.5. -/
theorem C4_setframerate_amended_witness :
    SetFramerate (51 / 2) (51 / 2) = ([wregCmd 0xB4 1], some (51 / 2)) := by
  have h := (C4_setframerate_amended (51 / 2) (51 / 2)).2 (by norm_num) le_rfl
  have e : goRound ((51 : ℚ) / 2 / (51 / 2)) = 1 := by
    rw [show (51 : ℚ) / 2 / (51 / 2) = ((1 : ℤ) : ℚ) from by norm_num]
    exact goRound_intCast 1 (by omega)
  rw [h.1, e]
  norm_num [int2u8]

/-- Closed form of the `readRegister` loop: when every read at offsets
`i..i+k-1` answers with a nonempty payload, the loop issues exactly the
`k` `RREG` commands in ascending offset order and concatenates the
payloads in that order. -/
theorem rrAux_spec (send : List Nat → Option (List Nat)) (addr : Nat)
    (resp : Nat → List Nat) :
    ∀ (k i : Nat),
      (∀ j, j < k →
        send (rregCmd ((addr + (i + j)) % 256)) = some (resp (i + j))) →
      (∀ j, j < k → resp (i + j) ≠ []) →
      rrAux send addr i k =
        ((List.range k).map (fun j => rregCmd ((addr + (i + j)) % 256)),
          some (((List.range k).map (fun j => resp (i + j))).flatten)) := by
  intro k
  induction k with
  | zero =>
    intro i _ _
    rfl
  | succ k ih =>
    intro i hsend hresp
    have h0 : send (rregCmd ((addr + i) % 256)) = some (resp i) := by
      have h := hsend 0 (Nat.succ_pos k)
      simpa using h
    have h0ne : resp i ≠ [] := by
      have h := hresp 0 (Nat.succ_pos k)
      simpa using h
    have hlen0 : ¬ (resp i).length = 0 := by
      simpa [List.length_eq_zero] using h0ne
    have ihapp := ih (i + 1)
      (fun j hj => by
        have h := hsend (j + 1) (by omega)
        have e : i + (j + 1) = i + 1 + j := by omega
        rw [e] at h
        exact h)
      (fun j hj => by
        have h := hresp (j + 1) (by omega)
        have e : i + (j + 1) = i + 1 + j := by omega
        rw [e] at h
        exact h)
    have hfun1 : (fun j => rregCmd ((addr + (i + 1 + j)) % 256)) =
        (fun j => rregCmd ((addr + (i + (j + 1))) % 256)) := by
      funext j
      have e : i + 1 + j = i + (j + 1) := by omega
      rw [e]
    have hfun2 : (fun j => resp (i + 1 + j)) =
        (fun j => resp (i + (j + 1))) := by
      funext j
      have e : i + 1 + j = i + (j + 1) := by omega
      rw [e]
    simp only [rrAux, h0, if_neg hlen0, ihapp, hfun1, hfun2,
      Option.map_some]
    rw [List.range_succ_eq_map]
    simp only [List.map_cons, List.map_map, List.flatten_cons, Nat.add_zero,
      Prod.mk.injEq, List.cons.injEq, Option.some.injEq]
    have hmapeq : ∀ f : Nat → List Nat,
        List.map (f ∘ Nat.succ) (List.range k) =
          List.map (fun j => f (j + 1)) (List.range k) :=
      fun f => List.map_congr_left fun a _ => by
        simp [Function.comp, Nat.succ_eq_add_one]
    rw [hmapeq, hmapeq]
    simp

/-- C5: for a register descriptor of length N (no `uint8` address
wraparound, as for every catalog register) whose N reads all succeed
with nonempty payloads, `readRegister` issues exactly the N
single-address `RREG` commands at `Address`, `Address+1`, …,
`Address+N−1`, in ascending order, and returns the hex-decoding of the
concatenation of the N response payloads in address order. -/
theorem C5_readRegister (send : List Nat → Option (List Nat))
    (reg : Register) (resp : Nat → List Nat)
    (hlen : reg.Length ≤ 255)
    (hwrap : reg.Address + reg.Length ≤ 256)
    (hsend : ∀ j, j < reg.Length →
      send (rregCmd (reg.Address + j)) = some (resp j))
    (hne : ∀ j, j < reg.Length → resp j ≠ []) :
    (readRegister send reg).1 =
        (List.range reg.Length).map (fun j => rregCmd (reg.Address + j)) ∧
      (readRegister send reg).2 =
        hexDecode (((List.range reg.Length).map resp).flatten) := by
  have hmod : reg.Length % 256 = reg.Length := Nat.mod_eq_of_lt (by omega)
  have spec := rrAux_spec send reg.Address resp reg.Length 0
    (fun j hj => by
      have e : (reg.Address + (0 + j)) % 256 = reg.Address + j := by
        rw [Nat.zero_add]
        exact Nat.mod_eq_of_lt (by omega)
      rw [e, Nat.zero_add]
      exact hsend j hj)
    (fun j hj => by
      rw [Nat.zero_add]
      exact hne j hj)
  have hmap1 : (List.range reg.Length).map
        (fun j => rregCmd ((reg.Address + (0 + j)) % 256)) =
      (List.range reg.Length).map (fun j => rregCmd (reg.Address + j)) :=
    List.map_congr_left fun a ha => by
      have haL : a < reg.Length := List.mem_range.mp ha
      rw [Nat.zero_add, Nat.mod_eq_of_lt (by omega)]
  have hmap2 : (List.range reg.Length).map (fun j => resp (0 + j)) =
      (List.range reg.Length).map resp :=
    List.map_congr_left fun a _ => by rw [Nat.zero_add]
  rw [readRegister, hmod, spec, hmap1, hmap2]
  simp

/-- C5 witnessed on the 6-byte `SENXOR_ID` descriptor with every read
answering the hex string `"0F"`: six commands at 0xE0..0xE5 and the six
decoded bytes. -/
theorem C5_readRegister_witness :
    (readRegister (fun _ => some [48, 70]) SENXOR_ID).1 =
        [rregCmd 0xE0, rregCmd 0xE1, rregCmd 0xE2, rregCmd 0xE3,
          rregCmd 0xE4, rregCmd 0xE5] ∧
      (readRegister (fun _ => some [48, 70]) SENXOR_ID).2 =
        some [15, 15, 15, 15, 15, 15] := by
  have h := C5_readRegister (fun _ => some [48, 70]) SENXOR_ID
    (fun _ => [48, 70]) (by decide) (by decide)
    (fun j _ => rfl) (fun j _ => by simp)
  refine ⟨?_, ?_⟩
  · rw [h.1]
    decide
  · rw [h.2]
    decide

/-- C7 counterexample: with `Enabled = false` and `RowInFrame = true`
the composed config byte is 0, so its bit 1 is clear even though
`RowInFrame` is set — the source only sets bit 1 inside the `Enabled`
branch. -/
theorem C7_counterexample :
    netdConfigByte ⟨false, true, 0x14, 0, 0⟩ = 0 ∧
      (netdConfigByte ⟨false, true, 0x14, 0, 0⟩).testBit 1 = false ∧
      (⟨false, true, 0x14, 0, 0⟩ : NETDConfig).RowInFrame = true := by
  decide

/-- C7 (amended): `SetNETD` performs exactly four register writes in
the order factor (0xD5), pixel Y (0xD7), pixel X (0xD6), then the
config byte (0xD4) last; the config byte has bit 0 = `Enabled` and
bit 1 = `Enabled && RowInFrame` (not `RowInFrame` alone). -/
theorem C7_setnetd_amended (c : NETDConfig) :
    SetNETD c =
        ([wregCmd 0xD5 c.Factor, wregCmd 0xD7 c.Y, wregCmd 0xD6 c.X,
          wregCmd 0xD4 (netdConfigByte c)], true) ∧
      (netdConfigByte c).testBit 0 = c.Enabled ∧
      (netdConfigByte c).testBit 1 = (c.Enabled && c.RowInFrame) := by
  obtain ⟨e, r, f, x, y⟩ := c
  have h : ∀ e r : Bool,
      (netdConfigByte ⟨e, r, 0, 0, 0⟩).testBit 0 = e ∧
        (netdConfigByte ⟨e, r, 0, 0, 0⟩).testBit 1 = (e && r) := by decide
  exact ⟨rfl, (h e r).1, (h e r).2⟩

/-- C8: writing a read-only register fails before any transport access:
no command is issued and the result is an error. -/
theorem C8_writeRegister_readonly (reg : Register) (v : Nat)
    (h : reg.ReadOnly = true) : writeRegister reg v = ([], false) := by
  rw [writeRegister, if_pos h]

/-- C8 witnessed on the read-only `FW_VERSION` register. -/
theorem C8_writeRegister_readonly_witness :
    writeRegister FW_VERSION 0 = ([], false) :=
  C8_writeRegister_readonly FW_VERSION 0 rfl

/-- C9: `SetTemperatureOffset` writes `⌊offset/0.05⌋` for non-negative
offsets and `⌊256 − |offset/0.05|⌋` for negative offsets to
`OFFSET_CORR` (0xCB); in particular −5.0 °C writes 156 and 2.5 °C
writes 50. -/
theorem C9_temperature_offset :
    SetTemperatureOffset (-5) = ([wregCmd 0xCB 156], true) ∧
      SetTemperatureOffset (5 / 2) = ([wregCmd 0xCB 50], true) ∧
      (∀ q : ℚ, 0 ≤ q →
        SetTemperatureOffset q = ([wregCmd 0xCB (⌊q * 20⌋).toNat], true)) ∧
      (∀ q : ℚ, q < 0 →
        SetTemperatureOffset q =
          ([wregCmd 0xCB (⌊256 - |q * 20|⌋).toNat], true)) := by
  refine ⟨?_, ?_, setTemperatureOffset_nonneg, setTemperatureOffset_neg⟩
  · rw [setTemperatureOffset_neg (-5) (by norm_num)]
    norm_num
    rfl
  · rw [setTemperatureOffset_nonneg (5 / 2) (by norm_num)]
    norm_num
    rfl

/-- C9 witnessed at offset 1 °C: register value 20 is written. -/
theorem C9_temperature_offset_witness :
    SetTemperatureOffset 1 = ([wregCmd 0xCB 20], true) := by
  have h := C9_temperature_offset.2.2.1 1 (by norm_num)
  rw [h]
  norm_num
  rfl

/-- C10 counterexample: camera types 3 and 8 are in the catalog and
resolve `MaxFPS` to 0, but `SetFramerate` on such a session does
**not** fail for the negative target −1: the guard only rejects 0 and
targets above `MaxFPS`, so the call writes divisor byte 0 and returns
without error (Go returns `NaN` with a nil error; the ℚ model returns
0). -/
theorem C10_counterexample :
    cameraTypes 3 = some "MI0802" ∧ cameraTypes 8 = some "panther" ∧
      getMaxFPS 3 = 0 ∧
      SetFramerate (getMaxFPS 3) (-1) = ([wregCmd 0xB4 0], some 0) := by
  refine ⟨rfl, rfl, rfl, ?_⟩
  have e0 : getMaxFPS 3 = 0 := rfl
  have e1 : (0 : ℚ) / -1 = 0 := by norm_num
  have e2 : goRound (0 : ℚ) = 0 := by
    rw [goRound, if_pos le_rfl]
    norm_num
  rw [e0, SetFramerate, if_neg (by norm_num), e1, e2]
  simp only [writeRegister, FRAME_RATE, Bool.false_eq_true, if_neg]
  norm_num [int2u8]

/-- C10 (amended): types 3 and 8 are catalogued (so initialisation
resolves them), `getMaxFPS` returns 0 with no error for every type
other than 0, 1 and 2, and on such a session every `SetFramerate` call
with a **non-negative** target fails; negative targets slip through the
guard (see the counterexample). -/
theorem C10_maxfps_amended :
    cameraTypes 3 = some "MI0802" ∧ cameraTypes 8 = some "panther" ∧
      (∀ c : Nat, c ≠ 0 → c ≠ 1 → c ≠ 2 → getMaxFPS c = 0) ∧
      (∀ t : ℚ, 0 ≤ t → SetFramerate 0 t = ([], none)) := by
  refine ⟨rfl, rfl, ?_, ?_⟩
  · intro c h0 h1 h2
    match c with
    | 0 => exact absurd rfl h0
    | 1 => exact absurd rfl h1
    | 2 => exact absurd rfl h2
    | (n + 3) => rfl
  · intro t ht
    rcases eq_or_lt_of_le ht with he | hlt
    · rw [SetFramerate, if_pos (Or.inl he.symm)]
    · rw [SetFramerate, if_pos (Or.inr hlt)]

/-- C10 amended, witnessed at type 5 and target 1 Hz. -/
theorem C10_maxfps_amended_witness :
    getMaxFPS 5 = 0 ∧ SetFramerate 0 1 = ([], none) :=
  ⟨C10_maxfps_amended.2.2.1 5 (by decide) (by decide) (by decide),
    C10_maxfps_amended.2.2.2 1 (by norm_num)⟩
